import Mathlib

/-!
# Model of `server/i18n/i18n.go`

The package is a facade over three collaborators: the host plugin API
(`GetUser`, `GetConfig`, `LogWarn`), the file system (`ioutil.ReadDir`) and the
go-i18n library (`NewBundle`, `LoadMessageFile`, `NewLocalizer`,
`LocalizeMessage`, `Localize`).  Collaborators are parameters of the model; the
functions of the package are translated statement by statement.

* Go pointers that the source dereferences are `Option`s; dereferencing `none`
  is the run-time abort `Fault.nilDereference`.  This holds for the pointer
  arguments `l`, `m` and `lc` of the two rendering methods and for the pointers
  embedded in `Localizer`, `Message` and `LocalizeConfig`.  The receiver `b` is
  a bundle as `InitBundle` builds it.
* A Go `(value, error)` result is a pair of `Option`s, as the source returns it.
* Calls of `LogWarn` are collected, in order, in the `warnings` of a `Run`.
* Calls of `LoadMessageFile` are collected, in order, in `InitResult.loaded`.
-/

set_option linter.dupNamespace false

namespace I18n

/-! ## Host types (mattermost-server `model`) -/

/-- Host error value; `Error` is the text of `err.Error()`. -/
structure AppError where
  Error : String
  deriving DecidableEq, Repr

/-- Host user record; the source reads only `Locale`. -/
structure User where
  Locale : String
  deriving DecidableEq, Repr

/-- Host `LocalizationSettings`; `DefaultClientLocale` is a `*string`. -/
structure LocalizationSettings where
  DefaultClientLocale : Option String
  deriving DecidableEq, Repr

/-- Host `Config`; `LocalizationSettings` is held by value. -/
structure Config where
  LocalizationSettings : LocalizationSettings
  deriving DecidableEq, Repr

/-- One call of `LogWarn(msg, keyValuePairs...)`. -/
structure LogCall where
  msg : String
  keyValuePairs : List String
  deriving DecidableEq, Repr

/-- The `PluginAPI` interface: `GetUser` returns `(*model.User, *model.AppError)`,
`GetConfig` returns `*model.Config`.  `LogWarn` is the sink recorded in `Run`. -/
structure PluginAPI where
  GetUser : String → Option User × Option AppError
  GetConfig : Option Config

/-! ## Library types (go-i18n) -/

/-- The library message: an identifier and the default text carried by the
message definition (`Other`). -/
structure LibMessage where
  ID : String
  Other : String
  deriving DecidableEq, Repr

/-- The library localize config: message identifier, substitution data, plural
count and default message. -/
structure LibLocalizeConfig where
  MessageID : String
  TemplateData : List (String × String)
  PluralCount : Option Nat
  DefaultMessage : Option LibMessage
  deriving DecidableEq, Repr

/-- The library bundle: default language, registered formats, and the message
templates held for each locale tag. -/
structure LibBundle where
  defaultLanguage : String
  unmarshalFuncs : List String
  messageTemplates : List (String × List LibMessage)
  deriving DecidableEq, Repr

/-- The library localizer: what `i18n.NewLocalizer(bundle, langs...)` stores. -/
structure LibLocalizer where
  bundle : LibBundle
  langs : List String
  deriving DecidableEq, Repr

/-- `i18n.NewBundle(defaultLanguage)`. -/
def NewBundle (defaultLanguage : String) : LibBundle :=
  { defaultLanguage := defaultLanguage, unmarshalFuncs := [], messageTemplates := [] }

/-- `bundle.RegisterUnmarshalFunc(format, f)`. -/
def LibBundle.RegisterUnmarshalFunc (b : LibBundle) (format : String) : LibBundle :=
  { b with unmarshalFuncs := format :: b.unmarshalFuncs }

/-- `i18n.NewLocalizer(bundle, langs...)`. -/
def NewLocalizer (bundle : LibBundle) (langs : List String) : LibLocalizer :=
  { bundle := bundle, langs := langs }

/-- `language.English`. -/
def English : String := "en"

/-- The operations of the library whose bodies are outside the package: loading a
message file into a bundle, and the two localize calls, each returning Go's
`(string, error)`. -/
structure Engine where
  LoadMessageFile : LibBundle → String → Except String LibBundle
  LocalizeMessage : LibLocalizer → Option LibMessage → String × Option String
  Localize : LibLocalizer → Option LibLocalizeConfig → String × Option String

/-! ## File system -/

/-- What `os.FileInfo` gives the source: the name, and whether it is a directory. -/
structure FileInfo where
  Name : String
  IsDir : Bool
  deriving DecidableEq, Repr

/-- The file system as seen by the source: `ioutil.ReadDir` and `filepath.Join`. -/
structure FileSystem where
  ReadDir : String → Except String (List FileInfo)
  Join : String → String → String

/-! ## Wrapper types of the package -/

/-- Message wraps `*i18n.Message`. -/
structure Message where
  Message : Option LibMessage
  deriving DecidableEq, Repr

/-- LocalizeConfig wraps `*i18n.LocalizeConfig`. -/
structure LocalizeConfig where
  LocalizeConfig : Option LibLocalizeConfig
  deriving DecidableEq, Repr

/-- Localizer wraps `*i18n.Localizer`. -/
structure Localizer where
  Localizer : Option LibLocalizer
  deriving DecidableEq, Repr

/-- Bundle wraps `*i18n.Bundle` and holds the plugin API. -/
structure Bundle where
  Bundle : LibBundle
  api : PluginAPI

/-! ## Run-time outcomes -/

/-- Run-time abort of the Go program. -/
inductive Fault where
  | nilDereference
  deriving DecidableEq, Repr

/-- Outcome of a request-time call: the `LogWarn` calls it made, in order, and
either the returned value or the abort that ended it. -/
structure Run (α : Type) where
  warnings : List LogCall
  result : Except Fault α

/-- Outcome of `InitBundle`: the paths handed to `LoadMessageFile`, in order, and
the returned pair `(*Bundle, error)`. -/
structure InitResult where
  loaded : List String
  bundle : Option Bundle
  err : Option String

/-! ## Go helpers -/

/-- `strings.HasPrefix(s, p)`. -/
def HasPrefix (s p : String) : Bool := p.data.isPrefixOf s.data

/-- `errors.Wrap(err, message)` for a non-nil `err`: the text of the wrapped error. -/
def Wrap (err message : String) : String := message ++ ": " ++ err

/-- `errors.Wrapf(err, "failed to load message file %s", name)`. -/
def Wrapf (err name : String) : String :=
  Wrap err ("failed to load message file " ++ name)

/-! ## The package -/

/-- The test of the loop body of `InitBundle`: a file goes on to `LoadMessageFile`
when neither `continue` is taken. -/
def selected (file : FileInfo) : Bool :=
  HasPrefix file.Name "active." && !(file.Name == "active.en.json")

/-- The `for _, file := range files` loop of `InitBundle`, from a bundle state and
the paths loaded so far. -/
def loadFiles (eng : Engine) (fs : FileSystem) (api : PluginAPI) (path : String) :
    List FileInfo → LibBundle → List String → InitResult
  | [], b, loaded => { loaded := loaded, bundle := some { Bundle := b, api := api }, err := none }
  | file :: rest, b, loaded =>
    if !HasPrefix file.Name "active." then
      loadFiles eng fs api path rest b loaded
    else if file.Name == "active.en.json" then
      loadFiles eng fs api path rest b loaded
    else
      match eng.LoadMessageFile b (fs.Join path file.Name) with
      | .error err =>
        { loaded := loaded ++ [fs.Join path file.Name], bundle := none,
          err := some (Wrapf err file.Name) }
      | .ok b' => loadFiles eng fs api path rest b' (loaded ++ [fs.Join path file.Name])

/-- InitBundle loads all localization files of the directory into a bundle. -/
def InitBundle (eng : Engine) (fs : FileSystem) (api : PluginAPI) (path : String) :
    InitResult :=
  let bundle := (NewBundle English).RegisterUnmarshalFunc "json"
  match fs.ReadDir path with
  | .error err =>
    { loaded := [], bundle := none, err := some (Wrap err "failed to open i18n directory") }
  | .ok files => loadFiles eng fs api path files bundle []

/-- GetServerLocalizer returns a localizer for the server default client locale. -/
def GetServerLocalizer (b : Bundle) : Run Localizer :=
  match b.api.GetConfig with
  | none => { warnings := [], result := .error Fault.nilDereference }
  | some config =>
    match config.LocalizationSettings.DefaultClientLocale with
    | none => { warnings := [], result := .error Fault.nilDereference }
    | some locale =>
      { warnings := [], result := .ok { Localizer := some (NewLocalizer b.Bundle [locale]) } }

/-- GetUserLocalizer returns a localizer for the locale of the user. -/
def GetUserLocalizer (b : Bundle) (userID : String) : Run Localizer :=
  match b.api.GetUser userID with
  | (_, some err) =>
    let r := GetServerLocalizer b
    { warnings := { msg := "Failed get user's locale", keyValuePairs := ["error", err.Error] }
        :: r.warnings,
      result := r.result }
  | (none, none) => { warnings := [], result := .error Fault.nilDereference }
  | (some user, none) =>
    { warnings := [], result := .ok { Localizer := some (NewLocalizer b.Bundle [user.Locale]) } }

/-- LocalizeDefaultMessage localizes the provided message.  The call
`l.LocalizeMessage(m.Message)` reads through `l` and `m` and enters the library
method through the embedded localizer; a nil pointer on that way aborts.  On the
failure path `m.ID` is read through the embedded message. -/
def LocalizeDefaultMessage (eng : Engine) (_b : Bundle) (l : Option Localizer)
    (m : Option Message) : Run String :=
  match l, m with
  | some l, some m =>
    match l.Localizer with
    | none => { warnings := [], result := .error Fault.nilDereference }
    | some loc =>
      match eng.LocalizeMessage loc m.Message with
      | (_, some err) =>
        match m.Message with
        | none => { warnings := [], result := .error Fault.nilDereference }
        | some msg =>
          { warnings := [{ msg := "Failed to localize message",
                           keyValuePairs := ["message ID", msg.ID, "error", err] }],
            result := .ok "" }
      | (s, none) => { warnings := [], result := .ok s }
  | _, _ => { warnings := [], result := .error Fault.nilDereference }

/-- LocalizeWithConfig localizes the provided localize config.  The call
`l.Localize(lc.LocalizeConfig)` reads through `l` and `lc` and enters the library
method through the embedded localizer; a nil pointer on that way aborts. -/
def LocalizeWithConfig (eng : Engine) (_b : Bundle) (l : Option Localizer)
    (lc : Option LocalizeConfig) : Run String :=
  match l, lc with
  | some l, some lc =>
    match l.Localizer with
    | none => { warnings := [], result := .error Fault.nilDereference }
    | some loc =>
      match eng.Localize loc lc.LocalizeConfig with
      | (_, some err) =>
        { warnings := [{ msg := "Failed to localize with config",
                         keyValuePairs := ["error", err] }],
          result := .ok "" }
      | (s, none) => { warnings := [], result := .ok s }
  | _, _ => { warnings := [], result := .error Fault.nilDereference }

/-! ## Proof devices over the loop -/

/-- The paths the loop hands to the loader when no load fails: the selected files
of the listing, in order, joined to the directory. -/
def selectedPaths (fs : FileSystem) (path : String) (files : List FileInfo) : List String :=
  (files.filter selected).map (fun file => fs.Join path file.Name)

/-- The loop of `InitBundle` run over a list of paths already selected. -/
def loadPaths (eng : Engine) (api : PluginAPI) :
    List (String × String) → LibBundle → List String → InitResult
  | [], b, loaded => { loaded := loaded, bundle := some { Bundle := b, api := api }, err := none }
  | (name, full) :: rest, b, loaded =>
    match eng.LoadMessageFile b full with
    | .error err => { loaded := loaded ++ [full], bundle := none, err := some (Wrapf err name) }
    | .ok b' => loadPaths eng api rest b' (loaded ++ [full])

/-- The name and the joined path of each selected file of a listing. -/
def selectedEntries (fs : FileSystem) (path : String) (files : List FileInfo) :
    List (String × String) :=
  (files.filter selected).map (fun file => (file.Name, fs.Join path file.Name))

/-! ## The naming convention of the specification -/

/-- Some `.` of the list has a character before it in the list and one after it
(the argument is the list after its first character). -/
def dotThenMore : List Char → Bool
  | [] => false
  | c :: rest => (c == '.' && !rest.isEmpty) || dotThenMore rest

/-- A non-empty part, a `.`, and a non-empty part. -/
def localeDotFormat : List Char → Bool
  | [] => false
  | _ :: rest => dotThenMore rest

/-- The convention `active.<locale>.<format>` as the specification words it: the
name is `active.`, a non-empty locale, a dot, and a non-empty format. -/
def matchesConvention (name : String) : Bool :=
  HasPrefix name "active." && localeDotFormat (name.data.drop 7)

/-! ## The library as the specification describes it -/

/-- Modelled from the spec: the parsed content of the files on disk.  The library's
reading and parsing of a message file is outside the package; a path gives either
a parse error or the list of message templates of the file. -/
abbrev Disk := String → Except String (List LibMessage)

/-- Modelled from the spec: the formatting and pluralization engine, outside the
package: from a template text, substitution data and a plural count it gives Go's
`(string, error)`. -/
abbrev Formatter := String → List (String × String) → Option Nat → String × Option String

/-- Modelled from the spec: the locale parsed from a file name
`active.<locale>.<format>`, the part between the last two dots of the path. -/
def localeOfPath (path : String) : String :=
  String.mk ((((path.data.reverse.dropWhile (fun c => c != '.')).drop 1).takeWhile
    (fun c => c != '.' && c != '/')).reverse)

/-- Modelled from the spec: merging a message list into the catalog under a locale
tag; the newest entry of a tag is consulted first. -/
def LibBundle.AddMessages (b : LibBundle) (tag : String) (msgs : List LibMessage) :
    LibBundle :=
  { b with messageTemplates := (tag, msgs) :: b.messageTemplates }

/-- Modelled from the spec: the catalog entry of a locale tag for a message
identifier, if the catalog holds one. -/
def LibBundle.template (b : LibBundle) (tag id : String) : Option LibMessage :=
  (b.messageTemplates.filter (fun e => e.1 == tag)).findSome?
    (fun e => e.2.find? (fun t => t.ID == id))

/-- Modelled from the spec: the locale tags the catalog holds templates for. -/
def LibBundle.locales (b : LibBundle) : List String :=
  b.messageTemplates.map (fun e => e.1)

/-- Modelled from the spec: the library's `LoadMessageFile`, which parses the file
as a structured message list and merges it into the catalog under the locale parsed
from the file name; a parse failure is the error. -/
def specLoadMessageFile (disk : Disk) (b : LibBundle) (path : String) :
    Except String LibBundle :=
  match disk path with
  | .error err => .error err
  | .ok msgs => .ok (b.AddMessages (localeOfPath path) msgs)

/-- Modelled from the spec: the base-locale text of a message: the base-locale
entry of the catalog, or else the default text carried by the message definition. -/
def baseText (b : LibBundle) (id : String) (defaultMessage : Option LibMessage) :
    Option String :=
  match b.template b.defaultLanguage id with
  | some t => some t.Other
  | none =>
    match defaultMessage with
    | none => none
    | some m => if m.Other = "" then none else some m.Other

/-- Modelled from the spec: the fallback lookup of the formatting engine: the entry
of the localizer's locale for the identifier, or else the base-locale text; when
the base locale lacks it too there is no template. -/
def lookupText (l : LibLocalizer) (id : String) (defaultMessage : Option LibMessage) :
    Option String :=
  match l.langs.findSome? (fun tag => l.bundle.template tag id) with
  | some t => some t.Other
  | none => baseText l.bundle id defaultMessage

/-- Modelled from the spec: the library's `LocalizeMessage`, the lookup with
fallback and no substitution data; an absent message has no identifier and no
base text, which is the failure case. -/
def specLocalizeMessage (l : LibLocalizer) : Option LibMessage → String × Option String
  | none => ("", some "message not found")
  | some m =>
    match lookupText l m.ID (some m) with
    | some text => (text, none)
    | none => ("", some ("message " ++ m.ID ++ " not found"))

/-- Modelled from the spec: the library's `Localize`, the lookup with fallback
followed by formatting with the substitution data and plural count of the config. -/
def specLocalize (format : Formatter) (l : LibLocalizer) :
    Option LibLocalizeConfig → String × Option String
  | none => ("", some "message not found")
  | some lc =>
    let id := match lc.DefaultMessage with
      | some m => m.ID
      | none => lc.MessageID
    match lookupText l id lc.DefaultMessage with
    | some text => format text lc.TemplateData lc.PluralCount
    | none => ("", some ("message " ++ id ++ " not found"))

/-- Modelled from the spec: the library assembled from the operations above. -/
def specEngine (disk : Disk) (format : Formatter) : Engine :=
  { LoadMessageFile := specLoadMessageFile disk
    LocalizeMessage := specLocalizeMessage
    Localize := specLocalize format }

/-! ## Sample inputs -/

/-- A directory `i18n` holding a French file, a malformed German file under
`broken`, and files the loop skips. -/
def sampleFS : FileSystem :=
  { ReadDir := fun p =>
      if p = "i18n" then
        .ok [⟨"README.md", false⟩, ⟨"active.en.json", false⟩, ⟨"active.fr.json", false⟩]
      else if p = "broken" then
        .ok [⟨"active.fr.json", false⟩, ⟨"active.de.json", false⟩, ⟨"active.es.json", false⟩]
      else if p = "odd" then
        .ok [⟨"active.txt", false⟩]
      else .error "no such directory"
    Join := fun dir name => dir ++ "/" ++ name }

/-- The parsed content of the sample files. -/
def sampleDisk : Disk := fun p =>
  if p = "i18n/active.fr.json" then .ok [⟨"greeting", "Bonjour"⟩]
  else if p = "broken/active.fr.json" then .ok [⟨"greeting", "Bonjour"⟩]
  else if p = "broken/active.es.json" then .ok [⟨"greeting", "Hola"⟩]
  else if p = "odd/active.txt" then .ok []
  else .error "unexpected end of JSON input"

/-- A formatter that returns the template text as it is. -/
def plainFormat : Formatter := fun text _ _ => (text, none)

/-- A formatter that always reports an error. -/
def failingFormat : Formatter := fun _ _ _ => ("", some "template: bad syntax")

/-- The sample library. -/
def sampleEngine : Engine := specEngine sampleDisk plainFormat

/-- A host with one user `alice` (locale `fr`), one user `bob` (locale `de`), and a
server default client locale `en`. -/
def sampleAPI : PluginAPI :=
  { GetUser := fun id =>
      if id = "alice" then (some ⟨"fr"⟩, none)
      else if id = "bob" then (some ⟨"de"⟩, none)
      else (none, some ⟨"GetUser: Unable to find the user."⟩)
    GetConfig := some ⟨⟨some "en"⟩⟩ }

/-- A host whose configuration leaves the default client locale unset. -/
def unsetLocaleAPI : PluginAPI :=
  { GetUser := fun _ => (none, some ⟨"GetUser: Unable to find the user."⟩)
    GetConfig := some ⟨⟨none⟩⟩ }

/-- The bundle `InitBundle` gives for the sample directory. -/
def sampleBundle : Bundle :=
  { Bundle := (((NewBundle English).RegisterUnmarshalFunc "json").AddMessages "fr"
      [⟨"greeting", "Bonjour"⟩])
    api := sampleAPI }

/-- A second directory `i18n`: the same French file, other files beside it. -/
def otherFS : FileSystem :=
  { ReadDir := fun p =>
      if p = "i18n" then
        .ok [⟨"active.en.json", false⟩, ⟨"active.fr.json", false⟩, ⟨"notes.txt", false⟩,
          ⟨"inactive.de.json", false⟩]
      else .error "no such directory"
    Join := fun dir name => dir ++ "/" ++ name }

/-- The parsed content of the second directory: the skipped files differ from the
first. -/
def otherDisk : Disk := fun p =>
  if p = "i18n/active.fr.json" then .ok [⟨"greeting", "Bonjour"⟩]
  else if p = "i18n/active.en.json" then .ok [⟨"greeting", "Howdy"⟩]
  else if p = "i18n/inactive.de.json" then .ok [⟨"greeting", "Hallo"⟩]
  else .error "invalid character"

/-- A formatter that appends the substitution data and the plural form to the text. -/
def echoFormat : Formatter := fun text data count =>
  (data.foldl (fun acc kv => acc ++ " " ++ kv.1 ++ "=" ++ kv.2) text ++
    (if count = some 1 then " (one)" else " (other)"), none)

/-- The localizer of the sample bundle for the locale `fr`. -/
def frLocalizer : Localizer := { Localizer := some (NewLocalizer sampleBundle.Bundle ["fr"]) }

/-- The localizer of the sample bundle for the locale `de`. -/
def deLocalizer : Localizer := { Localizer := some (NewLocalizer sampleBundle.Bundle ["de"]) }

/-- The greeting, with its default text. -/
def greeting : Message := { Message := some { ID := "greeting", Other := "Hello" } }

/-- A message known to no locale and without default text. -/
def farewell : Message := { Message := some { ID := "farewell", Other := "" } }

/-- A request for the greeting with substitution data and a plural count. -/
def greetingConfig : LocalizeConfig :=
  { LocalizeConfig := some
      { MessageID := "greeting"
        TemplateData := [("Name", "Ada")]
        PluralCount := some 1
        DefaultMessage := none } }

/-- The bundle `InitBundle` starts the loop with. -/
def initialBundle : LibBundle := (NewBundle English).RegisterUnmarshalFunc "json"

/-! ## Lemmas on the loop of `InitBundle` -/

theorem selectedEntries_nil (fs : FileSystem) (path : String) :
    selectedEntries fs path [] = [] := rfl

theorem selectedEntries_cons (fs : FileSystem) (path : String) (file : FileInfo)
    (rest : List FileInfo) :
    selectedEntries fs path (file :: rest) =
      if selected file then (file.Name, fs.Join path file.Name) :: selectedEntries fs path rest
      else selectedEntries fs path rest := by
  unfold selectedEntries
  by_cases h : selected file = true <;> simp [List.filter_cons, h]

theorem selectedEntries_append (fs : FileSystem) (path : String) (xs ys : List FileInfo) :
    selectedEntries fs path (xs ++ ys) = selectedEntries fs path xs ++ selectedEntries fs path ys := by
  simp [selectedEntries]

theorem selectedPaths_eq (fs : FileSystem) (path : String) (files : List FileInfo) :
    selectedPaths fs path files = (selectedEntries fs path files).map Prod.snd := by
  simp [selectedPaths, selectedEntries, List.map_map, Function.comp_def]

theorem mem_selectedEntries (fs : FileSystem) (path : String) (files : List FileInfo)
    (e : String × String) (h : e ∈ selectedEntries fs path files) :
    ∃ file ∈ files, selected file = true ∧ e = (file.Name, fs.Join path file.Name) := by
  simp only [selectedEntries, List.mem_map, List.mem_filter] at h
  obtain ⟨file, ⟨hm, hs⟩, rfl⟩ := h
  exact ⟨file, hm, hs, rfl⟩

/-- The loop skips exactly the files that are not selected. -/
theorem loadFiles_eq_loadPaths (eng : Engine) (fs : FileSystem) (api : PluginAPI)
    (path : String) (files : List FileInfo) :
    ∀ (b : LibBundle) (loaded : List String),
      loadFiles eng fs api path files b loaded =
        loadPaths eng api (selectedEntries fs path files) b loaded := by
  induction files with
  | nil => intro b loaded; simp [loadFiles, selectedEntries_nil, loadPaths]
  | cons file rest ih =>
    intro b loaded
    rw [selectedEntries_cons]
    unfold loadFiles
    by_cases h1 : HasPrefix file.Name "active." = true
    · by_cases h2 : file.Name = "active.en.json"
      · have hs : selected file = false := by simp [selected, h2]
        simp [h1, h2, hs, ih]
      · have hs : selected file = true := by simp [selected, h1, h2]
        simp only [h1, hs, Bool.not_true, Bool.false_eq_true, if_false, if_true,
          beq_iff_eq, h2]
        unfold loadPaths
        cases eng.LoadMessageFile b (fs.Join path file.Name) with
        | error err => rfl
        | ok b' => simp [ih]
    · have hs : selected file = false := by simp [selected, h1]
      simp [h1, hs, ih]

theorem InitBundle_eq (eng : Engine) (fs : FileSystem) (api : PluginAPI) (path : String)
    (files : List FileInfo) (h : fs.ReadDir path = .ok files) :
    InitBundle eng fs api path =
      loadPaths eng api (selectedEntries fs path files) initialBundle [] := by
  unfold InitBundle
  simp only [h]
  exact loadFiles_eq_loadPaths eng fs api path files _ _

/-- A run over two lists in a row: the second starts from the state the first left,
and is not started when the first failed. -/
theorem loadPaths_append (eng : Engine) (api : PluginAPI) (xs ys : List (String × String)) :
    ∀ (b : LibBundle) (loaded : List String),
      loadPaths eng api (xs ++ ys) b loaded =
        match (loadPaths eng api xs b loaded).bundle with
        | some bd => loadPaths eng api ys bd.Bundle (loadPaths eng api xs b loaded).loaded
        | none => loadPaths eng api xs b loaded := by
  induction xs with
  | nil => intro b loaded; simp [loadPaths]
  | cons e rest ih =>
    intro b loaded
    obtain ⟨name, full⟩ := e
    simp only [List.cons_append, loadPaths]
    cases eng.LoadMessageFile b full with
    | error err => simp
    | ok b' => simp [ih]

/-- A failing entry anywhere in the list makes the run fail. -/
theorem loadPaths_fails (eng : Engine) (api : PluginAPI) (entries : List (String × String))
    (h : ∃ e ∈ entries, ∀ b, ∃ err, eng.LoadMessageFile b e.2 = .error err) :
    ∀ (b : LibBundle) (loaded : List String),
      (loadPaths eng api entries b loaded).bundle = none ∧
        (loadPaths eng api entries b loaded).err ≠ none := by
  induction entries with
  | nil => obtain ⟨e, he, _⟩ := h; simp at he
  | cons e rest ih =>
    intro b loaded
    obtain ⟨name, full⟩ := e
    unfold loadPaths
    cases hl : eng.LoadMessageFile b full with
    | error err => simp
    | ok b' =>
      obtain ⟨e, he, hfail⟩ := h
      rcases List.mem_cons.mp he with rfl | hrest
      · obtain ⟨err, herr⟩ := hfail b
        simp only at herr
        rw [hl] at herr
        cases herr
      · exact ih ⟨e, hrest, hfail⟩ b' _

/-- When every entry loads, the run returns a bundle and no error, has loaded every
entry in order, and the bundle has every property that a load establishes for its
path and later loads keep. -/
theorem loadPaths_succeeds (eng : Engine) (api : PluginAPI) (entries : List (String × String))
    (h : ∀ e ∈ entries, ∀ b, ∃ b', eng.LoadMessageFile b e.2 = .ok b') :
    ∀ (b : LibBundle) (loaded : List String),
      ∃ b', loadPaths eng api entries b loaded =
          { loaded := loaded ++ entries.map Prod.snd, bundle := some { Bundle := b', api := api },
            err := none } ∧
        ∀ Has : LibBundle → String → Prop,
          (∀ b₁ p b₂, eng.LoadMessageFile b₁ p = .ok b₂ → Has b₂ p) →
          (∀ b₁ p b₂ q, eng.LoadMessageFile b₁ p = .ok b₂ → Has b₁ q → Has b₂ q) →
          (∀ q, Has b q → Has b' q) ∧ ∀ e ∈ entries, Has b' e.2 := by
  induction entries with
  | nil =>
    intro b loaded
    exact ⟨b, by simp [loadPaths], fun Has _ _ => ⟨fun q hq => hq, by simp⟩⟩
  | cons e rest ih =>
    intro b loaded
    obtain ⟨name, full⟩ := e
    obtain ⟨b₁, hb₁⟩ := h (name, full) (List.mem_cons_self _ _) b
    simp only at hb₁
    obtain ⟨b', hrun, hprop⟩ :=
      ih (fun e he => h e (List.mem_cons_of_mem _ he)) b₁ (loaded ++ [full])
    refine ⟨b', ?_, ?_⟩
    · unfold loadPaths
      rw [hb₁]
      simp only [hrun, List.map_cons, List.append_assoc, List.singleton_append]
    · intro Has hest hkeep
      obtain ⟨hmono, hall⟩ := hprop Has hest hkeep
      refine ⟨fun q hq => hmono q (hkeep b full b₁ q hb₁ hq), ?_⟩
      intro e he
      rcases List.mem_cons.mp he with rfl | hrest
      · exact hmono _ (hest b full b₁ hb₁)
      · exact hall e hrest

/-- The paths a run has loaded are the paths it started with and then a prefix of
its entries: all of them when it returns no error. -/
theorem loadPaths_loaded (eng : Engine) (api : PluginAPI) (entries : List (String × String)) :
    ∀ (b : LibBundle) (loaded : List String),
      (∃ k, (loadPaths eng api entries b loaded).loaded =
          loaded ++ (entries.map Prod.snd).take k) ∧
        ((loadPaths eng api entries b loaded).err = none →
          (loadPaths eng api entries b loaded).loaded = loaded ++ entries.map Prod.snd) := by
  induction entries with
  | nil => intro b loaded; exact ⟨⟨0, by simp [loadPaths]⟩, fun _ => by simp [loadPaths]⟩
  | cons e rest ih =>
    intro b loaded
    obtain ⟨name, full⟩ := e
    unfold loadPaths
    cases eng.LoadMessageFile b full with
    | error err => exact ⟨⟨1, by simp⟩, fun h => by simp at h⟩
    | ok b' =>
      obtain ⟨⟨k, hk⟩, hall⟩ := ih b' (loaded ++ [full])
      refine ⟨⟨k + 1, ?_⟩, ?_⟩
      · simp only [hk, List.map_cons, List.take_succ_cons, List.append_assoc,
          List.singleton_append]
      · intro herr
        simp only [hall herr, List.map_cons, List.append_assoc, List.singleton_append]

/-- Two libraries that load the entries alike give the same run. -/
theorem loadPaths_congr (eng₁ eng₂ : Engine) (api : PluginAPI) (entries : List (String × String))
    (h : ∀ e ∈ entries, ∀ b, eng₁.LoadMessageFile b e.2 = eng₂.LoadMessageFile b e.2) :
    ∀ (b : LibBundle) (loaded : List String),
      loadPaths eng₁ api entries b loaded = loadPaths eng₂ api entries b loaded := by
  induction entries with
  | nil => intro b loaded; simp [loadPaths]
  | cons e rest ih =>
    intro b loaded
    obtain ⟨name, full⟩ := e
    have h0 := h (name, full) (List.mem_cons_self _ _) b
    simp only at h0
    unfold loadPaths
    rw [h0]
    cases eng₂.LoadMessageFile b full with
    | error err => rfl
    | ok b' => exact ih (fun e he => h e (List.mem_cons_of_mem _ he)) b' _

/-! ## Lemmas on the naming convention -/

theorem dotThenMore_iff (rest : List Char) :
    dotThenMore rest = true ↔ ∃ l f : List Char, f ≠ [] ∧ rest = l ++ '.' :: f := by
  induction rest with
  | nil => simp [dotThenMore]
  | cons c rest ih =>
    simp only [dotThenMore, Bool.or_eq_true, Bool.and_eq_true, beq_iff_eq, Bool.not_eq_true',
      List.isEmpty_eq_false, ih]
    constructor
    · rintro (⟨rfl, hne⟩ | ⟨l, f, hf, rfl⟩)
      · exact ⟨[], rest, hne, rfl⟩
      · exact ⟨c :: l, f, hf, rfl⟩
    · rintro ⟨l, f, hf, h⟩
      cases l with
      | nil =>
        simp only [List.nil_append, List.cons.injEq] at h
        exact Or.inl ⟨h.1, h.2 ▸ hf⟩
      | cons d l =>
        simp only [List.cons_append, List.cons.injEq] at h
        exact Or.inr ⟨l, f, hf, h.2⟩

theorem localeDotFormat_iff (t : List Char) :
    localeDotFormat t = true ↔
      ∃ l f : List Char, l ≠ [] ∧ f ≠ [] ∧ t = l ++ '.' :: f := by
  cases t with
  | nil => simp [localeDotFormat]
  | cons c rest =>
    simp only [localeDotFormat, dotThenMore_iff]
    constructor
    · rintro ⟨l, f, hf, rfl⟩
      exact ⟨c :: l, f, by simp, hf, rfl⟩
    · rintro ⟨l, f, hl, hf, h⟩
      cases l with
      | nil => exact absurd rfl hl
      | cons d l =>
        simp only [List.cons_append, List.cons.injEq] at h
        exact ⟨l, f, hf, h.2⟩

/-- The convention holds of a name exactly when the name is `active.`, a non-empty
locale, a dot and a non-empty format. -/
theorem matchesConvention_iff (name : String) :
    matchesConvention name = true ↔
      ∃ l f : List Char, l ≠ [] ∧ f ≠ [] ∧ name.data = "active.".data ++ l ++ '.' :: f := by
  unfold matchesConvention HasPrefix
  rw [Bool.and_eq_true, List.isPrefixOf_iff_prefix, localeDotFormat_iff]
  constructor
  · rintro ⟨⟨t, ht⟩, l, f, hl, hf, h⟩
    refine ⟨l, f, hl, hf, ?_⟩
    rw [← ht] at h
    have h7 : ("active.".data ++ t).drop 7 = t := by
      have : "active.".data.length = 7 := by decide
      rw [← this, List.drop_left]
    rw [h7] at h
    rw [← ht, h, List.append_assoc]
  · rintro ⟨l, f, hl, hf, h⟩
    refine ⟨⟨l ++ '.' :: f, by rw [h, List.append_assoc]⟩, l, f, hl, hf, ?_⟩
    have : "active.".data.length = 7 := by decide
    rw [h, List.append_assoc, ← this, List.drop_left]

theorem selected_iff (file : FileInfo) :
    selected file = true ↔
      (HasPrefix file.Name "active." = true ∧ file.Name ≠ "active.en.json") := by
  simp [selected]

/-! ## Lemmas on the library as the specification describes it -/

theorem specLoadMessageFile_adds (disk : Disk) (b₁ : LibBundle) (p : String) (b₂ : LibBundle)
    (h : specLoadMessageFile disk b₁ p = .ok b₂) : localeOfPath p ∈ b₂.locales := by
  unfold specLoadMessageFile at h
  cases hd : disk p with
  | error err => simp [hd] at h
  | ok msgs =>
    simp only [hd, Except.ok.injEq] at h
    subst h
    simp [LibBundle.locales, LibBundle.AddMessages]

theorem specLoadMessageFile_keeps (disk : Disk) (b₁ : LibBundle) (p : String) (b₂ : LibBundle)
    (q : String) (h : specLoadMessageFile disk b₁ p = .ok b₂)
    (hq : localeOfPath q ∈ b₁.locales) : localeOfPath q ∈ b₂.locales := by
  unfold specLoadMessageFile at h
  cases hd : disk p with
  | error err => simp [hd] at h
  | ok msgs =>
    simp only [hd, Except.ok.injEq] at h
    subst h
    simp only [LibBundle.locales, LibBundle.AddMessages, List.map_cons, List.mem_cons]
    exact Or.inr hq

theorem findSome?_eq_none_of_forall {α β : Type} (f : α → Option β) (xs : List α)
    (h : ∀ x ∈ xs, f x = none) : xs.findSome? f = none := by
  induction xs with
  | nil => rfl
  | cons x rest ih =>
    simp only [List.findSome?, h x (List.mem_cons_self _ _)]
    exact ih (fun y hy => h y (List.mem_cons_of_mem _ hy))

/-! ## Catalog initialization -/

/-- C1: `InitBundle` is fail-fast.  If the directory cannot be read, or a selected
file of the listing cannot be loaded whatever the bundle holds, or a selected file
fails to load in the state left by the files before it (which loaded successfully),
then the returned bundle is nil and the returned error is not nil. -/
theorem InitBundle_fail_fast (eng : Engine) (fs : FileSystem) (api : PluginAPI)
    (path : String)
    (h : (∃ err, fs.ReadDir path = .error err) ∨
      (∃ files file, fs.ReadDir path = .ok files ∧ file ∈ files ∧ selected file = true ∧
        ∀ b, ∃ err, eng.LoadMessageFile b (fs.Join path file.Name) = .error err) ∨
      (∃ pre file post bd err, fs.ReadDir path = .ok (pre ++ file :: post) ∧
        (loadFiles eng fs api path pre ((NewBundle English).RegisterUnmarshalFunc "json")
          []).bundle = some bd ∧
        selected file = true ∧
        eng.LoadMessageFile bd.Bundle (fs.Join path file.Name) = .error err)) :
    (InitBundle eng fs api path).bundle = none ∧ (InitBundle eng fs api path).err ≠ none := by
  rcases h with ⟨err, hdir⟩ | ⟨files, file, hdir, hmem, hsel, hfail⟩ |
    ⟨pre, file, post, bd, err, hdir, hpre, hsel, hfail⟩
  · unfold InitBundle
    simp [hdir]
  · rw [InitBundle_eq eng fs api path files hdir]
    refine loadPaths_fails eng api _ ⟨(file.Name, fs.Join path file.Name), ?_, hfail⟩ _ _
    simp only [selectedEntries, List.mem_map, List.mem_filter]
    exact ⟨file, ⟨hmem, hsel⟩, rfl⟩
  · rw [InitBundle_eq eng fs api path _ hdir, selectedEntries_append, loadPaths_append]
    rw [loadFiles_eq_loadPaths] at hpre
    change (loadPaths eng api (selectedEntries fs path pre) initialBundle []).bundle = some bd
      at hpre
    rw [hpre, selectedEntries_cons]
    simp only [hsel, if_true, loadPaths, hfail]
    simp

/-- Witness of C1: in the directory `broken` the French file loads and the German
file after it does not; no bundle is returned. -/
theorem InitBundle_fail_fast_witness :
    (InitBundle sampleEngine sampleFS sampleAPI "broken").bundle = none ∧
      (InitBundle sampleEngine sampleFS sampleAPI "broken").err ≠ none :=
  InitBundle_fail_fast sampleEngine sampleFS sampleAPI "broken"
    (Or.inr (Or.inl ⟨_, ⟨"active.de.json", false⟩, rfl, by decide, by decide,
      fun _ => ⟨_, rfl⟩⟩))

/-- C2: for a readable directory whose selected files all load, `InitBundle`
returns a bundle (holding the plugin API) and a nil error, has handed every selected
file of the listing to the loader, in order, and the bundle has, for every selected
file, every property that loading a file establishes and that later loads keep, such
as holding the locale of the file. -/
theorem InitBundle_loads_every_selected_file (eng : Engine) (fs : FileSystem)
    (api : PluginAPI) (path : String) (files : List FileInfo)
    (hdir : fs.ReadDir path = .ok files)
    (hload : ∀ file ∈ files, selected file = true →
      ∀ b, ∃ b', eng.LoadMessageFile b (fs.Join path file.Name) = .ok b') :
    ∃ bundle, (InitBundle eng fs api path).bundle = some bundle ∧ bundle.api = api ∧
      (InitBundle eng fs api path).err = none ∧
      (InitBundle eng fs api path).loaded = selectedPaths fs path files ∧
      ∀ Has : LibBundle → String → Prop,
        (∀ b₁ p b₂, eng.LoadMessageFile b₁ p = .ok b₂ → Has b₂ p) →
        (∀ b₁ p b₂ q, eng.LoadMessageFile b₁ p = .ok b₂ → Has b₁ q → Has b₂ q) →
        ∀ file ∈ files, selected file = true → Has bundle.Bundle (fs.Join path file.Name) := by
  have hall : ∀ e ∈ selectedEntries fs path files,
      ∀ b, ∃ b', eng.LoadMessageFile b e.2 = .ok b' := by
    intro e he b
    obtain ⟨file, hm, hs, rfl⟩ := mem_selectedEntries fs path files e he
    exact hload file hm hs b
  obtain ⟨b', hrun, hprop⟩ := loadPaths_succeeds eng api _ hall initialBundle []
  rw [InitBundle_eq eng fs api path files hdir, hrun]
  refine ⟨{ Bundle := b', api := api }, rfl, rfl, rfl, ?_, ?_⟩
  · simp [selectedPaths_eq]
  · intro Has hest hkeep file hm hs
    refine (hprop Has hest hkeep).2 (file.Name, fs.Join path file.Name) ?_
    simp only [selectedEntries, List.mem_map, List.mem_filter]
    exact ⟨file, ⟨hm, hs⟩, rfl⟩

/-- Witness of C2: the sample directory gives a bundle, no error, one load, and a
catalog that holds the locale `fr`. -/
theorem InitBundle_loads_every_selected_file_witness :
    ∃ bundle, (InitBundle sampleEngine sampleFS sampleAPI "i18n").bundle = some bundle ∧
      (InitBundle sampleEngine sampleFS sampleAPI "i18n").err = none ∧
      (InitBundle sampleEngine sampleFS sampleAPI "i18n").loaded = ["i18n/active.fr.json"] ∧
      "fr" ∈ bundle.Bundle.locales := by
  obtain ⟨bundle, hb, _, herr, hloaded, hhas⟩ :=
    InitBundle_loads_every_selected_file sampleEngine sampleFS sampleAPI "i18n"
      [⟨"README.md", false⟩, ⟨"active.en.json", false⟩, ⟨"active.fr.json", false⟩] rfl
      (by
        intro file hm hs b
        simp only [List.mem_cons, List.mem_singleton, List.not_mem_nil, or_false] at hm
        rcases hm with rfl | rfl | rfl
        · exact absurd hs (by decide)
        · exact absurd hs (by decide)
        · exact ⟨_, rfl⟩)
  refine ⟨bundle, hb, herr, by rw [hloaded]; decide, ?_⟩
  have h := hhas (fun b p => localeOfPath p ∈ b.locales)
    (specLoadMessageFile_adds sampleDisk)
    (specLoadMessageFile_keeps sampleDisk)
    ⟨"active.fr.json", false⟩ (by decide) (by decide)
  have hfr : localeOfPath (sampleFS.Join "i18n" "active.fr.json") = "fr" := by decide
  exact hfr ▸ h

/-- The run of the loop over selected files, in terms of the loader alone: either
every file loads in the state left by the files before it, and the run returns the
last state and has loaded every path; or some file is the first to fail, and the
run returns its wrapped error and has loaded the paths up to and including it. -/
theorem loadPaths_run (eng : Engine) (fs : FileSystem) (api : PluginAPI) (path : String)
    (sel : List FileInfo) :
    ∀ (b : LibBundle) (loaded : List String),
      (∃ b', (sel.map (fun file => fs.Join path file.Name)).foldlM eng.LoadMessageFile b =
            .ok b' ∧
          loadPaths eng api (sel.map (fun file => (file.Name, fs.Join path file.Name))) b loaded =
            { loaded := loaded ++ sel.map (fun file => fs.Join path file.Name),
              bundle := some { Bundle := b', api := api }, err := none }) ∨
      (∃ pre file post b' err, sel = pre ++ file :: post ∧
          (pre.map (fun file => fs.Join path file.Name)).foldlM eng.LoadMessageFile b =
            .ok b' ∧
          eng.LoadMessageFile b' (fs.Join path file.Name) = .error err ∧
          loadPaths eng api (sel.map (fun file => (file.Name, fs.Join path file.Name))) b loaded =
            { loaded := loaded ++ (pre ++ [file]).map (fun file => fs.Join path file.Name),
              bundle := none, err := some (Wrapf err file.Name) }) := by
  induction sel with
  | nil =>
    intro b loaded
    exact Or.inl ⟨b, rfl, by simp [loadPaths]⟩
  | cons f rest ih =>
    intro b loaded
    cases hl : eng.LoadMessageFile b (fs.Join path f.Name) with
    | error err =>
      refine Or.inr ⟨[], f, rest, b, err, rfl, rfl, hl, ?_⟩
      simp [loadPaths, hl]
    | ok b₁ =>
      rcases ih b₁ (loaded ++ [fs.Join path f.Name]) with
        ⟨b', hfold, hrun⟩ | ⟨pre, file, post, b', err, hsplit, hfold, hfail, hrun⟩
      · refine Or.inl ⟨b', ?_, ?_⟩
        · simp only [List.map_cons, List.foldlM_cons, hl]
          exact hfold
        · simp only [List.map_cons, loadPaths, hl, hrun, List.append_assoc,
            List.singleton_append]
      · refine Or.inr ⟨f :: pre, file, post, b', err, by rw [hsplit]; rfl, ?_, hfail, ?_⟩
        · simp only [List.map_cons, List.foldlM_cons, hl]
          exact hfold
        · simp only [List.map_cons, loadPaths, hl, hrun, List.append_assoc,
            List.singleton_append, List.cons_append, List.nil_append]

/-! ## Catalog initialization: which files are loaded -/

/-- C3 as stated fails: in the directory `odd` the file `active.txt` is handed to
the loader, and its name is not of the form `active.<locale>.<format>`. -/
theorem InitBundle_loads_outside_convention :
    sampleFS.ReadDir "odd" = .ok [⟨"active.txt", false⟩] ∧
      (InitBundle sampleEngine sampleFS sampleAPI "odd").loaded = ["odd/active.txt"] ∧
      matchesConvention "active.txt" = false := by
  refine ⟨rfl, by decide, by decide⟩

/-- C3 amended: a file is selected exactly when its name starts with `active.` and
is not `active.en.json`, which every name of the form `active.<locale>.<format>`
other than `active.en.json` satisfies.  The outcome of `InitBundle` is fixed by the
selected files of the listing and the loader on their paths: either every selected
file loads, each in the state left by those before it, and the result is the last
state, no error, and every selected path loaded in listing order; or some selected
file is the first to fail, and the result is no bundle, the wrapped error of that
file, and the selected paths loaded up to and including it.  Two directories with
the same selected files, loaded alike, give the same result whatever the other
files are or hold. -/
theorem InitBundle_selection (eng₁ eng₂ : Engine) (fs₁ fs₂ : FileSystem) (api : PluginAPI)
    (path : String) (files₁ files₂ : List FileInfo)
    (hdir₁ : fs₁.ReadDir path = .ok files₁) (hdir₂ : fs₂.ReadDir path = .ok files₂)
    (hnames : (files₁.filter selected).map (fun file => file.Name) =
      (files₂.filter selected).map (fun file => file.Name))
    (hjoin : ∀ name, fs₁.Join path name = fs₂.Join path name)
    (hload : ∀ file ∈ files₁, selected file = true → ∀ b,
      eng₁.LoadMessageFile b (fs₁.Join path file.Name) =
        eng₂.LoadMessageFile b (fs₁.Join path file.Name)) :
    (∀ file : FileInfo, selected file = true ↔
      (HasPrefix file.Name "active." = true ∧ file.Name ≠ "active.en.json")) ∧
    (∀ file : FileInfo, matchesConvention file.Name = true → file.Name ≠ "active.en.json" →
      selected file = true) ∧
    ((∃ b', (selectedPaths fs₁ path files₁).foldlM eng₁.LoadMessageFile
            ((NewBundle English).RegisterUnmarshalFunc "json") = .ok b' ∧
        InitBundle eng₁ fs₁ api path =
          { loaded := selectedPaths fs₁ path files₁,
            bundle := some { Bundle := b', api := api }, err := none }) ∨
      (∃ pre file post b' err, files₁.filter selected = pre ++ file :: post ∧
        (pre.map (fun file => fs₁.Join path file.Name)).foldlM eng₁.LoadMessageFile
            ((NewBundle English).RegisterUnmarshalFunc "json") = .ok b' ∧
        eng₁.LoadMessageFile b' (fs₁.Join path file.Name) = .error err ∧
        InitBundle eng₁ fs₁ api path =
          { loaded := (pre ++ [file]).map (fun file => fs₁.Join path file.Name),
            bundle := none, err := some (Wrapf err file.Name) })) ∧
    InitBundle eng₁ fs₁ api path = InitBundle eng₂ fs₂ api path := by
  refine ⟨selected_iff, ?_, ?_, ?_⟩
  · intro file hconv hne
    unfold matchesConvention at hconv
    rw [Bool.and_eq_true] at hconv
    exact (selected_iff file).2 ⟨hconv.1, hne⟩
  · rw [InitBundle_eq eng₁ fs₁ api path files₁ hdir₁]
    have hrun := loadPaths_run eng₁ fs₁ api path (files₁.filter selected) initialBundle []
    simp only [List.nil_append] at hrun
    exact hrun
  · rw [InitBundle_eq eng₁ fs₁ api path files₁ hdir₁,
      InitBundle_eq eng₂ fs₂ api path files₂ hdir₂]
    have hentries : selectedEntries fs₂ path files₂ = selectedEntries fs₁ path files₁ := by
      have e₁ : selectedEntries fs₁ path files₁ =
          ((files₁.filter selected).map (fun file => file.Name)).map
            (fun name => (name, fs₁.Join path name)) := by
        simp [selectedEntries, List.map_map, Function.comp_def]
      have e₂ : selectedEntries fs₂ path files₂ =
          ((files₂.filter selected).map (fun file => file.Name)).map
            (fun name => (name, fs₁.Join path name)) := by
        simp [selectedEntries, List.map_map, Function.comp_def, hjoin]
      rw [e₁, e₂, hnames]
    rw [hentries]
    apply loadPaths_congr
    intro e he b
    obtain ⟨file, hm, hs, rfl⟩ := mem_selectedEntries fs₁ path files₁ e he
    exact hload file hm hs b

/-- Witness of C3 amended: two directories `i18n` that differ in the files the loop
skips, and in what those files hold, give the same result, which is the French file
loaded and no error; in the directory `broken` the French file and the German file,
the first to fail, are loaded and the Spanish file after them is not. -/
theorem InitBundle_selection_witness :
    InitBundle sampleEngine sampleFS sampleAPI "i18n" =
        InitBundle (specEngine otherDisk plainFormat) otherFS sampleAPI "i18n" ∧
      (InitBundle sampleEngine sampleFS sampleAPI "i18n").loaded = ["i18n/active.fr.json"] ∧
      (InitBundle sampleEngine sampleFS sampleAPI "i18n").err = none ∧
      (InitBundle sampleEngine sampleFS sampleAPI "broken").loaded =
        ["broken/active.fr.json", "broken/active.de.json"] ∧
      (InitBundle sampleEngine sampleFS sampleAPI "broken").err =
        some "failed to load message file active.de.json: unexpected end of JSON input" :=
  ⟨(InitBundle_selection sampleEngine (specEngine otherDisk plainFormat) sampleFS otherFS
    sampleAPI "i18n" _ _ rfl rfl (by decide) (fun _ => rfl)
    (by
      intro file hm hs b
      simp only [List.mem_cons, List.mem_singleton, List.not_mem_nil, or_false] at hm
      rcases hm with rfl | rfl | rfl
      · exact absurd hs (by decide)
      · exact absurd hs (by decide)
      · rfl)).2.2.2, by decide, by decide, by decide, by decide⟩

/-! ## Locale resolution -/

/-- C4: when `GetUser` returns an error for the user ID, `GetUserLocalizer` ends as
`GetServerLocalizer` does in the same host state, which is with a localizer bound to
the bundle and the configured default client locale when one is configured, and it
logs exactly one warning, which carries the text of the lookup error. -/
theorem GetUserLocalizer_lookup_error (b : Bundle) (userID : String) (user : Option User)
    (err : AppError) (h : b.api.GetUser userID = (user, some err)) :
    (GetUserLocalizer b userID).result = (GetServerLocalizer b).result ∧
    (GetUserLocalizer b userID).warnings =
      [{ msg := "Failed get user's locale", keyValuePairs := ["error", err.Error] }] ∧
    (GetServerLocalizer b).warnings = [] ∧
    ∀ config locale, b.api.GetConfig = some config →
      config.LocalizationSettings.DefaultClientLocale = some locale →
      (GetUserLocalizer b userID).result = .ok { Localizer := some (NewLocalizer b.Bundle [locale]) } := by
  have hw : (GetServerLocalizer b).warnings = [] := by
    unfold GetServerLocalizer
    split
    · rfl
    · split <;> rfl
  have hu : GetUserLocalizer b userID =
      { warnings := { msg := "Failed get user's locale", keyValuePairs := ["error", err.Error] }
          :: (GetServerLocalizer b).warnings,
        result := (GetServerLocalizer b).result } := by
    unfold GetUserLocalizer
    rw [h]
    cases user <;> rfl
  refine ⟨by rw [hu], by rw [hu, hw], hw, ?_⟩
  intro config locale hc hl
  rw [hu]
  unfold GetServerLocalizer
  simp only [hc, hl]

/-- Witness of C4: an unknown user of the sample host gets the server localizer, for
the locale `en`, and one warning is logged. -/
theorem GetUserLocalizer_lookup_error_witness :
    (GetUserLocalizer sampleBundle "carol").result = (GetServerLocalizer sampleBundle).result ∧
    (GetUserLocalizer sampleBundle "carol").warnings =
      [{ msg := "Failed get user's locale",
         keyValuePairs := ["error", "GetUser: Unable to find the user."] }] ∧
    (GetUserLocalizer sampleBundle "carol").result =
      .ok { Localizer := some (NewLocalizer sampleBundle.Bundle ["en"]) } :=
  have h := GetUserLocalizer_lookup_error sampleBundle "carol" none
    ⟨"GetUser: Unable to find the user."⟩ rfl
  ⟨h.1, h.2.1, h.2.2.2 ⟨⟨some "en"⟩⟩ "en" rfl rfl⟩

/-- C5: when `GetUser` returns a user and no error, `GetUserLocalizer` returns a
localizer bound to the bundle and to the stored locale of that user, logs no
warning, and gives the same outcome whatever `GetConfig` returns. -/
theorem GetUserLocalizer_user_locale (b : Bundle) (userID : String) (user : User)
    (h : b.api.GetUser userID = (some user, none)) :
    (GetUserLocalizer b userID).result =
      .ok { Localizer := some { bundle := b.Bundle, langs := [user.Locale] } } ∧
    (GetUserLocalizer b userID).warnings = [] ∧
    ∀ config : Option Config,
      GetUserLocalizer { Bundle := b.Bundle, api := { GetUser := b.api.GetUser, GetConfig := config } }
        userID = GetUserLocalizer b userID := by
  have hu : ∀ config : Option Config,
      GetUserLocalizer { Bundle := b.Bundle, api := { GetUser := b.api.GetUser, GetConfig := config } }
        userID = { warnings := [], result := .ok { Localizer := some (NewLocalizer b.Bundle [user.Locale]) } } := by
    intro config
    unfold GetUserLocalizer
    simp only [h]
  have hb : GetUserLocalizer b userID =
      { warnings := [], result := .ok { Localizer := some (NewLocalizer b.Bundle [user.Locale]) } } := by
    unfold GetUserLocalizer
    rw [h]
  refine ⟨by rw [hb]; rfl, by rw [hb], ?_⟩
  intro config
  rw [hu config, hb]

/-- Witness of C5: user `alice` of the sample host, whose locale is `fr`, gets a
localizer for `fr` though the server default is `en`. -/
theorem GetUserLocalizer_user_locale_witness :
    (GetUserLocalizer sampleBundle "alice").result =
      .ok { Localizer := some { bundle := sampleBundle.Bundle, langs := ["fr"] } } ∧
    (GetUserLocalizer sampleBundle "alice").warnings = [] :=
  have h := GetUserLocalizer_user_locale sampleBundle "alice" ⟨"fr"⟩ rfl
  ⟨h.1, h.2.1⟩

/-- C9 as stated fails: with a configuration whose default client locale is unset,
`GetServerLocalizer` aborts, and so does `GetUserLocalizer` for a user the host
cannot find. -/
theorem localizers_abort_without_default_locale :
    (GetServerLocalizer { Bundle := initialBundle, api := unsetLocaleAPI }).result =
      .error Fault.nilDereference ∧
    (GetUserLocalizer { Bundle := initialBundle, api := unsetLocaleAPI } "carol").result =
      .error Fault.nilDereference := by
  exact ⟨rfl, rfl⟩

/-- C9 amended: in every host state in which `GetConfig` returns a configuration
whose default client locale is set, `GetServerLocalizer` returns a localizer, and so
does `GetUserLocalizer` for every user ID for which `GetUser` returns a user or an
error; neither aborts and neither has an error in its result. -/
theorem localizers_succeed_when_configured (b : Bundle) (userID : String) (config : Config)
    (locale : String) (hc : b.api.GetConfig = some config)
    (hl : config.LocalizationSettings.DefaultClientLocale = some locale)
    (hu : b.api.GetUser userID ≠ (none, none)) :
    (∃ l, (GetServerLocalizer b).result = .ok l) ∧
      ∃ l, (GetUserLocalizer b userID).result = .ok l := by
  have hs : (GetServerLocalizer b).result =
      .ok { Localizer := some (NewLocalizer b.Bundle [locale]) } := by
    unfold GetServerLocalizer
    simp only [hc, hl]
  refine ⟨⟨_, hs⟩, ?_⟩
  unfold GetUserLocalizer
  rcases hg : b.api.GetUser userID with ⟨user, err⟩
  cases err with
  | some e => cases user <;> exact ⟨_, hs⟩
  | none =>
    cases user with
    | none => exact absurd hg hu
    | some u => exact ⟨_, rfl⟩

/-- Witness of C9 amended: on the sample host both calls return a localizer for an
unknown user. -/
theorem localizers_succeed_when_configured_witness :
    (∃ l, (GetServerLocalizer sampleBundle).result = .ok l) ∧
      ∃ l, (GetUserLocalizer sampleBundle "carol").result = .ok l :=
  localizers_succeed_when_configured sampleBundle "carol" ⟨⟨some "en"⟩⟩ "en" rfl rfl
    (by decide)

/-! ## Rendering -/

/-- C6 as stated fails: for the `Message` whose embedded library message is absent the
library reports an error, and `LocalizeDefaultMessage` does not return the empty
string and logs no warning: it aborts on reading the message identifier. -/
theorem LocalizeDefaultMessage_failure_without_warning :
    (sampleEngine.LocalizeMessage (NewLocalizer sampleBundle.Bundle ["fr"]) none).2 =
        some "message not found" ∧
      (LocalizeDefaultMessage sampleEngine sampleBundle (some frLocalizer)
        (some { Message := none })).result ≠ .ok "" ∧
      (LocalizeDefaultMessage sampleEngine sampleBundle (some frLocalizer)
        (some { Message := none })).warnings.length ≠ 1 := by
  refine ⟨rfl, ?_, by decide⟩
  intro h
  cases h

/-- C6 amended: for every library, every localizer through which the library is
reached, and every message whose embedded library message is present, when the
library fails to localize the message, `LocalizeDefaultMessage` returns the empty
string and logs exactly one warning, which holds the identifier of the message and
the text of the error; when the library succeeds, for every message, present or
absent, it returns the string of the library and logs nothing. -/
theorem LocalizeDefaultMessage_contract (eng : Engine) (b : Bundle) (loc : LibLocalizer) :
    (∀ (msg : LibMessage) (s err : String),
      eng.LocalizeMessage loc (some msg) = (s, some err) →
      (LocalizeDefaultMessage eng b (some { Localizer := some loc })
        (some { Message := some msg })).result = .ok "" ∧
      (LocalizeDefaultMessage eng b (some { Localizer := some loc })
        (some { Message := some msg })).warnings =
        [{ msg := "Failed to localize message",
           keyValuePairs := ["message ID", msg.ID, "error", err] }]) ∧
    (∀ (m : Message) (s : String), eng.LocalizeMessage loc m.Message = (s, none) →
      (LocalizeDefaultMessage eng b (some { Localizer := some loc }) (some m)).result = .ok s ∧
      (LocalizeDefaultMessage eng b (some { Localizer := some loc }) (some m)).warnings = []) := by
  constructor
  · intro msg s err h
    simp [LocalizeDefaultMessage, h]
  · intro m s h
    simp [LocalizeDefaultMessage, h]

/-- Witness of C6 amended: with the sample library, a message known to no locale and
without default text gives the empty string and one warning; the greeting gives
`Bonjour` and no warning. -/
theorem LocalizeDefaultMessage_contract_witness :
    ((LocalizeDefaultMessage sampleEngine sampleBundle (some frLocalizer)
        (some farewell)).result = .ok "" ∧
      (LocalizeDefaultMessage sampleEngine sampleBundle (some frLocalizer)
        (some farewell)).warnings =
        [{ msg := "Failed to localize message",
           keyValuePairs := ["message ID", "farewell", "error", "message farewell not found"] }]) ∧
    ((LocalizeDefaultMessage sampleEngine sampleBundle (some frLocalizer)
        (some greeting)).result = .ok "Bonjour" ∧
      (LocalizeDefaultMessage sampleEngine sampleBundle (some frLocalizer)
        (some greeting)).warnings = []) :=
  have h := LocalizeDefaultMessage_contract sampleEngine sampleBundle
    (NewLocalizer sampleBundle.Bundle ["fr"])
  ⟨h.1 { ID := "farewell", Other := "" } "" "message farewell not found" (by decide),
    h.2 greeting "Bonjour" (by decide)⟩

/-- C7: for every library, localizer and localize config, when the library's
`Localize`, called through the localizer on the config as it was given, fails,
`LocalizeWithConfig` returns the empty string and logs exactly one warning, which
holds the text of the error and no message identifier; when it succeeds,
`LocalizeWithConfig` returns the string of the library and logs nothing. -/
theorem LocalizeWithConfig_contract (eng : Engine) (b : Bundle) (l : Localizer)
    (lc : LocalizeConfig) :
    (∀ (loc : LibLocalizer) (s err : String), l.Localizer = some loc →
      eng.Localize loc lc.LocalizeConfig = (s, some err) →
      (LocalizeWithConfig eng b (some l) (some lc)).result = .ok "" ∧
      (LocalizeWithConfig eng b (some l) (some lc)).warnings =
        [{ msg := "Failed to localize with config", keyValuePairs := ["error", err] }]) ∧
    (∀ (loc : LibLocalizer) (s : String), l.Localizer = some loc →
      eng.Localize loc lc.LocalizeConfig = (s, none) →
      (LocalizeWithConfig eng b (some l) (some lc)).result = .ok s ∧
      (LocalizeWithConfig eng b (some l) (some lc)).warnings = []) := by
  constructor
  · intro loc s err hl h
    simp [LocalizeWithConfig, hl, h]
  · intro loc s hl h
    simp [LocalizeWithConfig, hl, h]

/-- Witness of C7: with a formatter that appends what it is given, the substitution
data and the plural count of the config show in the result; with a formatter that
fails, the result is empty and one warning is logged. -/
theorem LocalizeWithConfig_contract_witness :
    ((LocalizeWithConfig (specEngine sampleDisk echoFormat) sampleBundle (some frLocalizer)
        (some greetingConfig)).result = .ok "Bonjour Name=Ada (one)" ∧
      (LocalizeWithConfig (specEngine sampleDisk echoFormat) sampleBundle (some frLocalizer)
        (some greetingConfig)).warnings = []) ∧
    ((LocalizeWithConfig (specEngine sampleDisk failingFormat) sampleBundle (some frLocalizer)
        (some greetingConfig)).result = .ok "" ∧
      (LocalizeWithConfig (specEngine sampleDisk failingFormat) sampleBundle (some frLocalizer)
        (some greetingConfig)).warnings =
        [{ msg := "Failed to localize with config",
           keyValuePairs := ["error", "template: bad syntax"] }]) :=
  ⟨(LocalizeWithConfig_contract (specEngine sampleDisk echoFormat) sampleBundle frLocalizer
      greetingConfig).2 (NewLocalizer sampleBundle.Bundle ["fr"]) "Bonjour Name=Ada (one)" rfl
      (by decide),
    (LocalizeWithConfig_contract (specEngine sampleDisk failingFormat) sampleBundle frLocalizer
      greetingConfig).1 (NewLocalizer sampleBundle.Bundle ["fr"]) "" "template: bad syntax" rfl
      (by decide)⟩

/-- C8: with the library as the specification describes it, a message whose
identifier has no entry under any locale of the localizer, and which has base-locale
text, is rendered as that base-locale text, with no warning.  In the scenario of the
specification (directory `i18n` with `active.fr.json` holding the greeting `Bonjour`,
default text `Hello`) the bundle of `InitBundle` renders the greeting as `Bonjour`
for the user whose locale is `fr` and as `Hello` for the user whose locale is `de`. -/
theorem fallback_to_base_locale :
    (∀ (disk : Disk) (format : Formatter) (b : Bundle) (l : Localizer) (loc : LibLocalizer)
      (msg : LibMessage) (text : String),
      l.Localizer = some loc →
      (∀ tag ∈ loc.langs, loc.bundle.template tag msg.ID = none) →
      baseText loc.bundle msg.ID (some msg) = some text →
      (LocalizeDefaultMessage (specEngine disk format) b (some l)
          (some { Message := some msg })).result = .ok text ∧
        (LocalizeDefaultMessage (specEngine disk format) b (some l)
          (some { Message := some msg })).warnings = []) ∧
    ∃ bundle lfr lde,
      (InitBundle sampleEngine sampleFS sampleAPI "i18n").bundle = some bundle ∧
      (InitBundle sampleEngine sampleFS sampleAPI "i18n").loaded = ["i18n/active.fr.json"] ∧
      bundle.Bundle.defaultLanguage = "en" ∧
      sampleAPI.GetUser "alice" = (some { Locale := "fr" }, none) ∧
      sampleAPI.GetUser "bob" = (some { Locale := "de" }, none) ∧
      (GetUserLocalizer bundle "alice").result = .ok lfr ∧
      (GetUserLocalizer bundle "bob").result = .ok lde ∧
      (LocalizeDefaultMessage sampleEngine bundle (some lfr) (some greeting)).result =
        .ok "Bonjour" ∧
      (LocalizeDefaultMessage sampleEngine bundle (some lfr) (some greeting)).warnings = [] ∧
      (LocalizeDefaultMessage sampleEngine bundle (some lde) (some greeting)).result =
        .ok "Hello" ∧
      (LocalizeDefaultMessage sampleEngine bundle (some lde) (some greeting)).warnings = [] := by
  constructor
  · intro disk format b l loc msg text hl habsent hbase
    have hfind : loc.langs.findSome? (fun tag => loc.bundle.template tag msg.ID) = none :=
      findSome?_eq_none_of_forall _ _ habsent
    have hlook : lookupText loc msg.ID (some msg) = some text := by
      unfold lookupText
      rw [hfind]
      exact hbase
    have heng : (specEngine disk format).LocalizeMessage loc (some msg) = (text, none) := by
      simp only [specEngine, specLocalizeMessage, hlook]
    simp [LocalizeDefaultMessage, hl, heng]
  · exact ⟨sampleBundle, frLocalizer, deLocalizer,
      rfl, by decide, rfl, rfl, rfl, rfl, rfl, rfl, rfl, rfl, rfl⟩

/-- Witness of C8: the German localizer of the sample bundle has no entry for the
greeting, whose base-locale text is `Hello`. -/
theorem fallback_to_base_locale_witness :
    (LocalizeDefaultMessage sampleEngine sampleBundle (some deLocalizer)
        (some greeting)).result = .ok "Hello" ∧
      (LocalizeDefaultMessage sampleEngine sampleBundle (some deLocalizer)
        (some greeting)).warnings = [] :=
  fallback_to_base_locale.1 sampleDisk plainFormat sampleBundle deLocalizer
    (NewLocalizer sampleBundle.Bundle ["de"])
    { ID := "greeting", Other := "Hello" } "Hello" rfl (by decide) (by decide)

/-- C10 as stated fails: for a `Message` whose embedded library message is absent,
the library reports an error, and reading the identifier for the warning aborts
before anything is logged or returned; a localizer whose embedded library localizer
is absent aborts the call as well, whatever the message. -/
theorem LocalizeDefaultMessage_aborts_on_absent_message :
    sampleEngine.LocalizeMessage (NewLocalizer sampleBundle.Bundle ["fr"]) none =
      ("", some "message not found") ∧
    (LocalizeDefaultMessage sampleEngine sampleBundle (some frLocalizer)
      (some { Message := none })).result = .error Fault.nilDereference ∧
    (LocalizeDefaultMessage sampleEngine sampleBundle (some frLocalizer)
      (some { Message := none })).warnings = [] ∧
    (LocalizeDefaultMessage sampleEngine sampleBundle (some { Localizer := none })
      (some greeting)).result = .error Fault.nilDereference := by
  exact ⟨rfl, rfl, rfl, rfl⟩

/-- C10 amended: `LocalizeDefaultMessage` returns a string, and does not abort,
exactly when the localizer is not nil and its embedded library localizer is present,
the `Message` is not nil, and either its embedded library message is present or the
library reports no error.  So for every such localizer and every `Message` whose
embedded library message is present it returns a string, and on the failure path
the identifier is read from the present message without aborting. -/
theorem LocalizeDefaultMessage_returns (eng : Engine) (b : Bundle) (l : Option Localizer)
    (m : Option Message) :
    (∃ s, (LocalizeDefaultMessage eng b l m).result = .ok s) ↔
      ∃ lw loc mw, l = some lw ∧ lw.Localizer = some loc ∧ m = some mw ∧
        (mw.Message ≠ none ∨ (eng.LocalizeMessage loc mw.Message).2 = none) := by
  constructor
  · rintro ⟨s, hs⟩
    cases l with
    | none => simp [LocalizeDefaultMessage] at hs
    | some lw =>
      cases m with
      | none => simp [LocalizeDefaultMessage] at hs
      | some mw =>
        cases hloc : lw.Localizer with
        | none => simp [LocalizeDefaultMessage, hloc] at hs
        | some loc =>
          refine ⟨lw, loc, mw, rfl, hloc, rfl, ?_⟩
          rcases he : eng.LocalizeMessage loc mw.Message with ⟨t, err⟩
          cases err with
          | none => exact Or.inr rfl
          | some e =>
            cases hm : mw.Message with
            | none =>
              rw [hm] at he
              simp [LocalizeDefaultMessage, hloc, hm, he] at hs
            | some msg => exact Or.inl (by simp)
  · rintro ⟨lw, loc, mw, rfl, hloc, rfl, h⟩
    rcases he : eng.LocalizeMessage loc mw.Message with ⟨t, err⟩
    cases err with
    | none => exact ⟨t, by simp only [LocalizeDefaultMessage, hloc, he]⟩
    | some e =>
      cases hm : mw.Message with
      | none =>
        rcases h with h | h
        · exact absurd hm h
        · rw [he] at h
          cases h
      | some msg =>
        rw [hm] at he
        exact ⟨"", by simp only [LocalizeDefaultMessage, hloc, hm, he]⟩

/-- Witness of C10 amended: a present message unknown to every locale and without
default text takes the failure path and the call returns. -/
theorem LocalizeDefaultMessage_returns_witness :
    ∃ s, (LocalizeDefaultMessage sampleEngine sampleBundle (some frLocalizer)
      (some farewell)).result = .ok s :=
  (LocalizeDefaultMessage_returns sampleEngine sampleBundle (some frLocalizer)
    (some farewell)).2
    ⟨frLocalizer, NewLocalizer sampleBundle.Bundle ["fr"], farewell, rfl, rfl, rfl,
      Or.inl (by decide)⟩

end I18n
